import Mathlib

/-!
Shallow embedding of the legacy-task normalization adapter of the kizuna
repository (`src/backend/src/middleware/legacyAdapter.ts`, with the value
types of `src/backend/src/types.ts` and `src/backend/src/models/LegacyTask.ts`),
together with theorems settling the specification claims about it.

Modelling conventions for the JavaScript source:
* a possibly-absent string field (`title?: string`) is `Option String`;
  `none` stands for `undefined`;
* `status?: string | number` and `priority?: string | number` are
  `Option StrOrNum`; `tags?: string[] | string` is `Option TagsVal`;
* JS truthiness on these values: `undefined`, `""` and `0` are falsy,
  every array (also `[]`) is truthy;
* the builtins `String(...)`, `.toLowerCase()`, `.trim()` and `.split(",")`
  used by the adapter are modelled by `coerceEnumField`, `jsToLower`,
  `jsTrim` and `jsSplitComma` (faithful on ASCII data, which covers every
  input the claims mention);
* the wall clock read by `new Date().toISOString()` is an explicit `now`
  argument, and the JS date facility used by `resolveDueDate` is an explicit
  `DateEnv` parameter: `parse s = some iso` when `new Date(s)` is a valid
  date whose `toISOString()` is `iso`, and `none` when `toISOString()`
  would throw (the `catch` branch of the source);
* object-literal lookup `statusMap[s]` is association-list lookup.

The TypeScript enums `TaskStatus` and `TaskPriority` are unions of string
literals, so enum values are plain `String`s here, exactly the runtime
values `"TODO" | "IN_PROGRESS" | "REVIEW" | "DONE"` and
`"LOW" | "MEDIUM" | "HIGH" | "CRITICAL"` of `types.ts`.
-/

namespace Kizuna

/-- `status?: string | number` — a JS value that is a string or a number. -/
inductive StrOrNum where
  | str (s : String)
  | num (n : Int)

/-- `tags?: string[] | string` — a JS value that is a string or an array of strings. -/
inductive TagsVal where
  | str (s : String)
  | arr (l : List String)

/-- The raw legacy document, restricted to the fields the adapter reads
(`ILegacyTask` is schemaless, extra keys are ignored by the code). -/
structure RawRecord where
  _id : Option String
  title : Option String
  name : Option String
  task_name : Option String
  desc : Option String
  description : Option String
  status : Option StrOrNum
  priority : Option StrOrNum
  assignee : Option String
  owner : Option String
  member : Option String
  due : Option String
  due_date : Option String
  deadline : Option String
  tags : Option TagsVal

/-- The empty raw document `{}`: every field `undefined`. -/
def emptyRaw : RawRecord :=
  { _id := none, title := none, name := none, task_name := none,
    desc := none, description := none, status := none, priority := none,
    assignee := none, owner := none, member := none,
    due := none, due_date := none, deadline := none, tags := none }

/-- `NormalizedTask` of `types.ts`. -/
structure NormalizedTask where
  id : String
  title : String
  description : String
  status : String
  priority : String
  assignee : String
  dueDate : Option String
  tags : List String
  normalizedAt : String

/-- JS `a || b` where `a` is a possibly-undefined string and `b` a string:
`undefined` and `""` are falsy. -/
def orStr : Option String → String → String
  | some s, b => if s = "" then b else s
  | none, b => b

/-- JS `a || b` where both operands are possibly-undefined strings. -/
def orOpt : Option String → Option String → Option String
  | some s, b => if s = "" then b else some s
  | none, b => b

/-- Model of JS `String.prototype.toLowerCase` (ASCII case mapping). -/
def jsToLower (s : String) : String :=
  ⟨s.data.map Char.toLower⟩

/-- Whitespace trimming on the character list: drop leading and trailing
whitespace characters. -/
def charTrim (l : List Char) : List Char :=
  (l.dropWhile Char.isWhitespace).rdropWhile Char.isWhitespace

/-- Model of JS `String.prototype.trim`. -/
def jsTrim (s : String) : String :=
  ⟨charTrim s.data⟩

/-- Split a character list at every `','`, JS `split(",")` on the pieces level. -/
def splitCommaChars : List Char → List (List Char)
  | [] => [[]]
  | c :: rest =>
    match splitCommaChars rest with
    | [] => [[]]
    | piece :: pieces =>
      if c = ',' then [] :: piece :: pieces else (c :: piece) :: pieces

/-- Model of JS `String.prototype.split(",")`. -/
def jsSplitComma (s : String) : List String :=
  (splitCommaChars s.data).map (fun cs => ⟨cs⟩)

/-- `String(raw.status || "")` / `String(raw.priority || "")`: JS coercion of
the field after the falsy-default, for a `string | number | undefined` value. -/
def coerceEnumField : Option StrOrNum → String
  | some (StrOrNum.str s) => if s = "" then "" else s
  | some (StrOrNum.num n) => if n = 0 then "" else toString n
  | none => ""

/-- `m[k] || d` for an object literal `m`: lookup, with the falsy default. -/
def jsLookupOr (m : List (String × String)) (k : String) (d : String) : String :=
  match m.lookup k with
  | some v => if v = "" then d else v
  | none => d

/-- `resolveTitle` (legacyAdapter.ts lines 16–23):
`raw.title || raw.name || raw.task_name || "Untitled Task"`. -/
def resolveTitle (raw : RawRecord) : String :=
  orStr raw.title (orStr raw.name (orStr raw.task_name "Untitled Task"))

/-- `resolveDescription` (lines 28–30): `raw.desc || raw.description || ""`. -/
def resolveDescription (raw : RawRecord) : String :=
  orStr raw.desc (orStr raw.description "")

/-- The `statusMap` object literal of `resolveStatus` (lines 38–58), in source order. -/
def statusMap : List (String × String) :=
  [("todo", "TODO"), ("backlog", "TODO"), ("0", "TODO"), ("open", "TODO"),
   ("in_progress", "IN_PROGRESS"), ("in progress", "IN_PROGRESS"),
   ("active", "IN_PROGRESS"), ("wip", "IN_PROGRESS"), ("1", "IN_PROGRESS"),
   ("doing", "IN_PROGRESS"),
   ("review", "REVIEW"), ("pending", "REVIEW"), ("2", "REVIEW"),
   ("in_review", "REVIEW"),
   ("done", "DONE"), ("completed", "DONE"), ("3", "DONE"), ("closed", "DONE"),
   ("finished", "DONE")]

/-- `resolveStatus` (lines 36–60):
`const s = String(raw.status || "").toLowerCase().trim(); return statusMap[s] || "TODO";`. -/
def resolveStatus (raw : RawRecord) : String :=
  jsLookupOr statusMap (jsTrim (jsToLower (coerceEnumField raw.status))) "TODO"

/-- The `priorityMap` object literal of `resolvePriority` (lines 67–82), in source order. -/
def priorityMap : List (String × String) :=
  [("low", "LOW"), ("minor", "LOW"), ("1", "LOW"),
   ("medium", "MEDIUM"), ("mid", "MEDIUM"), ("normal", "MEDIUM"),
   ("2", "MEDIUM"),
   ("high", "HIGH"), ("major", "HIGH"), ("3", "HIGH"),
   ("critical", "CRITICAL"), ("blocker", "CRITICAL"), ("4", "CRITICAL"),
   ("urgent", "CRITICAL")]

/-- `resolvePriority` (lines 65–84). -/
def resolvePriority (raw : RawRecord) : String :=
  jsLookupOr priorityMap (jsTrim (jsToLower (coerceEnumField raw.priority))) "MEDIUM"

/-- `resolveAssignee` (lines 89–91): `raw.assignee || raw.owner || raw.member || "Unassigned"`. -/
def resolveAssignee (raw : RawRecord) : String :=
  orStr raw.assignee (orStr raw.owner (orStr raw.member "Unassigned"))

/-- The JS runtime date facility used by `resolveDueDate` (see the module
docstring): an abstract parameter of the embedding. -/
structure DateEnv where
  parse : String → Option String

/-- `raw.due || raw.due_date || raw.deadline || null` (line 97). -/
def dueDateRaw (raw : RawRecord) : Option String :=
  orOpt raw.due (orOpt raw.due_date (orOpt raw.deadline none))

/-- `resolveDueDate` (lines 96–104): first truthy alias; `null` when none;
`new Date(v).toISOString()` when it parses, the raw value itself when the
conversion throws (the `catch` branch). -/
def resolveDueDate (env : DateEnv) (raw : RawRecord) : Option String :=
  match dueDateRaw raw with
  | none => none
  | some d =>
    match env.parse d with
    | some iso => some iso
    | none => some d

/-- `resolveTags` (lines 109–116): `[]` on a falsy field (`undefined` or `""`),
an array is returned as-is, any other (string) value is split on `","`,
each piece trimmed, empty pieces dropped (`filter(Boolean)`). -/
def resolveTags (raw : RawRecord) : List String :=
  match raw.tags with
  | none => []
  | some (TagsVal.arr l) => l
  | some (TagsVal.str s) =>
    if s = "" then []
    else ((jsSplitComma s).map jsTrim).filter (fun t => t != "")

/-- `String((raw as any)._id)` (line 123): JS string coercion of a
possibly-undefined id. -/
def jsIdString : Option String → String
  | some s => s
  | none => "undefined"

/-- `normalizeTask` (lines 121–133). `now` is the value
`new Date().toISOString()` read at the call. -/
def normalizeTask (env : DateEnv) (now : String) (raw : RawRecord) : NormalizedTask :=
  { id := jsIdString raw._id,
    title := resolveTitle raw,
    description := resolveDescription raw,
    status := resolveStatus raw,
    priority := resolvePriority raw,
    assignee := resolveAssignee raw,
    dueDate := resolveDueDate env raw,
    tags := resolveTags raw,
    normalizedAt := now }

/-- The batch form: `rawTasks.map(normalizeTask)` (line 148). -/
def normalizeAll (env : DateEnv) (now : String) (raws : List RawRecord) :
    List NormalizedTask :=
  raws.map (normalizeTask env now)

/-- The part of `res.locals` the middleware touches. -/
structure Locals where
  rawTasks : Option (List RawRecord)
  tasks : Option (List NormalizedTask)

/-- `legacyAdapterMiddleware` (lines 140–156) as a transform of `res.locals`:
when `rawTasks` is present its normalization is attached as `tasks`
(`normalizeTask` is total, so the `catch (err)` branch is dead). -/
def legacyAdapterMiddleware (env : DateEnv) (now : String) (l : Locals) : Locals :=
  match l.rawTasks with
  | some raws => { l with tasks := some (normalizeAll env now raws) }
  | none => l

/-- The enumeration `TaskStatus` of `types.ts` (string-literal union). -/
def taskStatusValues : List String :=
  ["TODO", "IN_PROGRESS", "REVIEW", "DONE"]

/-- The enumeration `TaskPriority` of `types.ts` (string-literal union). -/
def taskPriorityValues : List String :=
  ["LOW", "MEDIUM", "HIGH", "CRITICAL"]

/-- JS truthiness of a possibly-undefined string field. -/
def isTruthyStr : Option String → Bool
  | some s => s != ""
  | none => false

/-- The alias fields whose resolvers test JS truthiness (claim C10). -/
inductive AliasField where
  | title | name | task_name | desc | description
  | assignee | owner | member
  | due | due_date | deadline
  | tags | status | priority

/-- Set one alias field of a raw record to the JS empty string `""`. -/
def setEmptyStr (r : RawRecord) : AliasField → RawRecord
  | AliasField.title => { r with title := some "" }
  | AliasField.name => { r with name := some "" }
  | AliasField.task_name => { r with task_name := some "" }
  | AliasField.desc => { r with desc := some "" }
  | AliasField.description => { r with description := some "" }
  | AliasField.assignee => { r with assignee := some "" }
  | AliasField.owner => { r with owner := some "" }
  | AliasField.member => { r with member := some "" }
  | AliasField.due => { r with due := some "" }
  | AliasField.due_date => { r with due_date := some "" }
  | AliasField.deadline => { r with deadline := some "" }
  | AliasField.tags => { r with tags := some (TagsVal.str "") }
  | AliasField.status => { r with status := some (StrOrNum.str "") }
  | AliasField.priority => { r with priority := some (StrOrNum.str "") }

/-- Remove one alias field of a raw record (set it to `undefined`). -/
def clearField (r : RawRecord) : AliasField → RawRecord
  | AliasField.title => { r with title := none }
  | AliasField.name => { r with name := none }
  | AliasField.task_name => { r with task_name := none }
  | AliasField.desc => { r with desc := none }
  | AliasField.description => { r with description := none }
  | AliasField.assignee => { r with assignee := none }
  | AliasField.owner => { r with owner := none }
  | AliasField.member => { r with member := none }
  | AliasField.due => { r with due := none }
  | AliasField.due_date => { r with due_date := none }
  | AliasField.deadline => { r with deadline := none }
  | AliasField.tags => { r with tags := none }
  | AliasField.status => { r with status := none }
  | AliasField.priority => { r with priority := none }

/-- A concrete `DateEnv` on which no string parses (every conversion throws). -/
def dateEnvNone : DateEnv :=
  ⟨fun _ => none⟩

/-- A concrete `DateEnv` that parses exactly the sample date of the spec. -/
def dateEnvSample : DateEnv :=
  ⟨fun s => if s = "2024-04-15" then some "2024-04-15T00:00:00.000Z" else none⟩

@[simp]
theorem orStr_some_empty (b : String) : orStr (some "") b = b := rfl

@[simp]
theorem orStr_none (b : String) : orStr none b = b := rfl

@[simp]
theorem orOpt_some_empty (b : Option String) : orOpt (some "") b = b := rfl

@[simp]
theorem orOpt_none (b : Option String) : orOpt none b = b := rfl

@[simp]
theorem coerceEnumField_some_empty : coerceEnumField (some (StrOrNum.str "")) = "" := rfl

@[simp]
theorem coerceEnumField_none : coerceEnumField none = "" := rfl

/-- A value produced by association-list lookup is one of the list's values. -/
theorem lookup_mem_snd {m : List (String × String)} {k v : String}
    (h : m.lookup k = some v) : v ∈ m.map Prod.snd := by
  induction m with
  | nil => simp [List.lookup] at h
  | cons p rest ih =>
    obtain ⟨a, b⟩ := p
    rw [List.lookup] at h
    cases hk : (k == a) with
    | true =>
      rw [hk] at h
      simp only [Option.some.injEq] at h
      subst h
      simp
    | false =>
      rw [hk] at h
      simpa using Or.inr (ih h)

/-- `resolveStatus` only produces values of the `TaskStatus` enumeration. -/
theorem resolveStatus_mem (raw : RawRecord) :
    resolveStatus raw ∈ taskStatusValues := by
  rw [resolveStatus, jsLookupOr]
  rcases h : statusMap.lookup (jsTrim (jsToLower (coerceEnumField raw.status))) with _ | v
  · decide
  · have hv := lookup_mem_snd h
    have hsub : ∀ x ∈ statusMap.map Prod.snd, x ∈ taskStatusValues := by decide
    by_cases hve : v = ""
    · simp only [hve, if_pos rfl]
      decide
    · simpa [hve] using hsub v hv

/-- `resolvePriority` only produces values of the `TaskPriority` enumeration. -/
theorem resolvePriority_mem (raw : RawRecord) :
    resolvePriority raw ∈ taskPriorityValues := by
  rw [resolvePriority, jsLookupOr]
  rcases h : priorityMap.lookup (jsTrim (jsToLower (coerceEnumField raw.priority))) with _ | v
  · decide
  · have hv := lookup_mem_snd h
    have hsub : ∀ x ∈ priorityMap.map Prod.snd, x ∈ taskPriorityValues := by decide
    by_cases hve : v = ""
    · simp only [hve, if_pos rfl]
      decide
    · simpa [hve] using hsub v hv

/-- Dropping a leading-whitespace prefix twice is the same as dropping it once,
also after the trailing side has been trimmed. -/
theorem dropWhile_rdropWhile_eq (l : List Char)
    (hl : l.dropWhile Char.isWhitespace = l) :
    (l.rdropWhile Char.isWhitespace).dropWhile Char.isWhitespace
      = l.rdropWhile Char.isWhitespace := by
  obtain ⟨t, ht⟩ := List.dropWhile_suffix (l := l.reverse) Char.isWhitespace
  have hl' : l = l.rdropWhile Char.isWhitespace ++ t.reverse := by
    rw [List.rdropWhile]
    have := congrArg List.reverse ht
    simpa [List.reverse_append] using this.symm
  rcases hR : l.rdropWhile Char.isWhitespace with _ | ⟨a, R⟩
  · simp
  · have hX : l = a :: (R ++ t.reverse) := by
      rw [hl', hR]
      simp
    have hhead : ¬(Char.isWhitespace a = true) := by
      have h0 := List.dropWhile_eq_self_iff.mp hl
      rw [hX] at h0
      simpa using h0 (by simp)
    rw [List.dropWhile_cons, if_neg hhead]

/-- `charTrim` is idempotent. -/
theorem charTrim_idem (l : List Char) : charTrim (charTrim l) = charTrim l := by
  rw [charTrim, charTrim]
  rw [dropWhile_rdropWhile_eq (l.dropWhile Char.isWhitespace)
    (List.dropWhile_idempotent Char.isWhitespace l)]
  exact List.rdropWhile_idempotent Char.isWhitespace (l.dropWhile Char.isWhitespace)

/-- `jsTrim` is idempotent: a trimmed string trims to itself. -/
theorem jsTrim_idem (s : String) : jsTrim (jsTrim s) = jsTrim s :=
  congrArg String.mk (charTrim_idem s.data)

/-- `a || b` skips a falsy left operand. -/
theorem orStr_falsy {o : Option String} (h : isTruthyStr o = false) (b : String) :
    orStr o b = b := by
  cases o with
  | none => rfl
  | some s =>
    have hs : s = "" := by simpa [isTruthyStr] using h
    simp [orStr, hs]

/-- `a || b` keeps a truthy left operand. -/
theorem orStr_truthy {s : String} (h : s ≠ "") (b : String) :
    orStr (some s) b = s := by
  simp [orStr, h]

/-- C1 (amended; the spec misnames two enum values): `normalizeTask` is a total
function — it is defined for every `RawRecord` and, being a Lean function,
terminates and cannot raise — and its `status` field is always a member of the
code's fixed enumeration {TODO, IN_PROGRESS, REVIEW, DONE} and its `priority`
field a member of {LOW, MEDIUM, HIGH, CRITICAL}. -/
theorem normalizeTask_status_priority_enum (env : DateEnv) (now : String) (raw : RawRecord) :
    (normalizeTask env now raw).status ∈ taskStatusValues ∧
    (normalizeTask env now raw).priority ∈ taskPriorityValues :=
  ⟨resolveStatus_mem raw, resolvePriority_mem raw⟩

/-- C1 counterexample: the claim names the enumeration
{BACKLOG, IN_PROGRESS, IN_REVIEW, DONE}, but on the empty record the code
produces the status value "TODO", which is not a member of that enumeration
(the code's `TaskStatus` values are "TODO", "IN_PROGRESS", "REVIEW", "DONE"). -/
theorem normalizeTask_status_outside_spec_enum :
    (normalizeTask dateEnvNone "2024-01-01T00:00:00.000Z" emptyRaw).status = "TODO" ∧
    "TODO" ∉ (["BACKLOG", "IN_PROGRESS", "IN_REVIEW", "DONE"] : List String) := by
  decide

/-- C2 (amended; the review state's code value is "REVIEW", not "IN_REVIEW"):
any status string whose lower-cased trim is "2", "review" or "pending" — i.e.
those labels in any letter case with surrounding whitespace — resolves to the
same canonical review state, the value "REVIEW". -/
theorem resolveStatus_review_equivalence (raw : RawRecord) (s : String)
    (hs : raw.status = some (StrOrNum.str s))
    (hk : jsTrim (jsToLower s) ∈ (["2", "review", "pending"] : List String)) :
    resolveStatus raw = "REVIEW" := by
  have hse : s ≠ "" := by
    intro he
    subst he
    exact absurd hk (by decide)
  have hcoerce : coerceEnumField raw.status = s := by
    rw [hs]
    simp [coerceEnumField, hse]
  rw [resolveStatus, hcoerce]
  simp only [List.mem_cons, List.not_mem_nil, or_false] at hk
  rcases hk with h | h | h <;> rw [h] <;> decide

/-- C2 witness: the three synonyms, one of them in mixed case with surrounding
whitespace, all resolve to "REVIEW". -/
theorem resolveStatus_review_equivalence_witness :
    resolveStatus { emptyRaw with status := some (StrOrNum.str "2") } = "REVIEW" ∧
    resolveStatus { emptyRaw with status := some (StrOrNum.str " Review ") } = "REVIEW" ∧
    resolveStatus { emptyRaw with status := some (StrOrNum.str "PENDING") } = "REVIEW" :=
  ⟨resolveStatus_review_equivalence { emptyRaw with status := some (StrOrNum.str "2") }
      "2" rfl (by decide),
   resolveStatus_review_equivalence { emptyRaw with status := some (StrOrNum.str " Review ") }
      " Review " rfl (by decide),
   resolveStatus_review_equivalence { emptyRaw with status := some (StrOrNum.str "PENDING") }
      "PENDING" rfl (by decide)⟩

/-- C2 counterexample: the claim says `status: "review"` normalizes to
IN_REVIEW; the code produces the value "REVIEW", which is not "IN_REVIEW". -/
theorem resolveStatus_review_not_IN_REVIEW :
    resolveStatus { emptyRaw with status := some (StrOrNum.str "review") } = "REVIEW" ∧
    ("REVIEW" : String) ≠ "IN_REVIEW" := by
  decide

/-- C3: due-date resolution is total (a Lean function, it cannot raise): when
no alias holds a truthy value the result is `null`; when the first truthy alias
value parses as a date the result is its ISO-8601 representation; when it does
not parse the result is the original raw value unchanged. -/
theorem resolveDueDate_parse_or_passthrough (env : DateEnv) (raw : RawRecord) :
    (dueDateRaw raw = none → resolveDueDate env raw = none) ∧
    (∀ d, dueDateRaw raw = some d →
      (∀ iso, env.parse d = some iso → resolveDueDate env raw = some iso) ∧
      (env.parse d = none → resolveDueDate env raw = some d)) := by
  constructor
  · intro h
    rw [resolveDueDate, h]
  · intro d hd
    constructor
    · intro iso hiso
      simp [resolveDueDate, hd, hiso]
    · intro hn
      simp [resolveDueDate, hd, hn]

/-- C3 witness: the spec's two samples — `due_date: "2024-04-15"` gives that
date's ISO-8601 form, `due: "not-a-date"` is passed through unchanged — and
the empty record gives `null`. -/
theorem resolveDueDate_parse_or_passthrough_witness :
    resolveDueDate dateEnvSample { emptyRaw with due_date := some "2024-04-15" }
      = some "2024-04-15T00:00:00.000Z" ∧
    resolveDueDate dateEnvSample { emptyRaw with due := some "not-a-date" }
      = some "not-a-date" ∧
    resolveDueDate dateEnvSample emptyRaw = none :=
  ⟨((resolveDueDate_parse_or_passthrough dateEnvSample
      { emptyRaw with due_date := some "2024-04-15" }).2 "2024-04-15" rfl).1
      "2024-04-15T00:00:00.000Z" rfl,
   ((resolveDueDate_parse_or_passthrough dateEnvSample
      { emptyRaw with due := some "not-a-date" }).2 "not-a-date" rfl).2 rfl,
   (resolveDueDate_parse_or_passthrough dateEnvSample emptyRaw).1 rfl⟩

/-- C4 (amended; an array-valued `tags` field is returned as-is, so its
elements need not be trimmed or non-empty): the resolved tags are the empty
sequence when the raw field is absent, the unchanged input sequence when the
raw field is already an array, and a sequence of non-empty trimmed strings
when the raw field is a string. -/
theorem resolveTags_shape (raw : RawRecord) :
    (raw.tags = none → resolveTags raw = []) ∧
    (∀ l, raw.tags = some (TagsVal.arr l) → resolveTags raw = l) ∧
    (∀ s, raw.tags = some (TagsVal.str s) →
      ∀ t ∈ resolveTags raw, t ≠ "" ∧ jsTrim t = t) := by
  refine ⟨fun h => by simp [resolveTags, h], fun l h => by simp [resolveTags, h], ?_⟩
  intro s h t ht
  have hres : resolveTags raw
      = if s = "" then [] else ((jsSplitComma s).map jsTrim).filter (fun t => t != "") := by
    simp [resolveTags, h]
  rw [hres] at ht
  by_cases hse : s = ""
  · rw [if_pos hse] at ht
    simp at ht
  · rw [if_neg hse] at ht
    obtain ⟨hmem, hne⟩ := List.mem_filter.mp ht
    obtain ⟨x, _, hx⟩ := List.mem_map.mp hmem
    refine ⟨by simpa using hne, ?_⟩
    rw [← hx]
    exact jsTrim_idem x

/-- C4 witness: the three shapes at concrete inputs, the string case observed
at the element "a" of the resolution of "a, b ,c". -/
theorem resolveTags_shape_witness :
    resolveTags emptyRaw = [] ∧
    resolveTags { emptyRaw with tags := some (TagsVal.arr ["x", "y"]) } = ["x", "y"] ∧
    (("a" : String) ≠ "" ∧ jsTrim "a" = "a") :=
  ⟨(resolveTags_shape emptyRaw).1 rfl,
   (resolveTags_shape { emptyRaw with tags := some (TagsVal.arr ["x", "y"]) }).2.1
      ["x", "y"] rfl,
   (resolveTags_shape { emptyRaw with tags := some (TagsVal.str "a, b ,c") }).2.2
      "a, b ,c" rfl "a" (by decide)⟩

/-- C4 counterexample: a raw record whose `tags` field is already an array
containing an empty and an untrimmed element keeps them unchanged after
normalization, so the normalized `tags` are not all non-empty and trimmed. -/
theorem resolveTags_array_passthrough_counterexample :
    (normalizeTask dateEnvNone "2024-01-01T00:00:00.000Z"
      { emptyRaw with tags := some (TagsVal.arr ["", " x "]) }).tags = ["", " x "] ∧
    ¬ (∀ t ∈ (normalizeTask dateEnvNone "2024-01-01T00:00:00.000Z"
      { emptyRaw with tags := some (TagsVal.arr ["", " x "]) }).tags,
        t ≠ "" ∧ jsTrim t = t) := by
  decide

/-- C5 (amended; the backlog state's code value is "TODO", not "BACKLOG"):
the empty raw record `{}` normalizes to the full default record — the
placeholder title "Untitled Task", empty description, status "TODO",
priority "MEDIUM", the "Unassigned" sentinel, no due date, no tags, and the
processing timestamp. -/
theorem normalizeTask_empty_defaults (env : DateEnv) (now : String) :
    (normalizeTask env now emptyRaw).title = "Untitled Task" ∧
    (normalizeTask env now emptyRaw).description = "" ∧
    (normalizeTask env now emptyRaw).status = "TODO" ∧
    (normalizeTask env now emptyRaw).priority = "MEDIUM" ∧
    (normalizeTask env now emptyRaw).assignee = "Unassigned" ∧
    (normalizeTask env now emptyRaw).dueDate = none ∧
    (normalizeTask env now emptyRaw).tags = [] ∧
    (normalizeTask env now emptyRaw).normalizedAt = now :=
  ⟨rfl, rfl, rfl, rfl, rfl, rfl, rfl, rfl⟩

/-- C5 counterexample: the claim says the empty record's status is BACKLOG;
the code produces the value "TODO". -/
theorem normalizeTask_empty_status_not_BACKLOG :
    (normalizeTask dateEnvNone "2024-01-01T00:00:00.000Z" emptyRaw).status = "TODO" ∧
    (normalizeTask dateEnvNone "2024-01-01T00:00:00.000Z" emptyRaw).status ≠ "BACKLOG" := by
  decide

/-- C6: the title resolver returns `title` whenever it is truthy (in
particular when both `title` and `name` are set), returns `task_name` when
`title` and `name` are falsy and `task_name` is truthy, and returns the fixed
placeholder "Untitled Task" when no alias is truthy. -/
theorem resolveTitle_alias_priority (raw : RawRecord) :
    (∀ t, raw.title = some t → t ≠ "" → resolveTitle raw = t) ∧
    (isTruthyStr raw.title = false → isTruthyStr raw.name = false →
      ∀ t, raw.task_name = some t → t ≠ "" → resolveTitle raw = t) ∧
    (isTruthyStr raw.title = false → isTruthyStr raw.name = false →
      isTruthyStr raw.task_name = false → resolveTitle raw = "Untitled Task") := by
  refine ⟨?_, ?_, ?_⟩
  · intro t ht hne
    rw [resolveTitle, ht, orStr_truthy hne]
  · intro h1 h2 t ht hne
    rw [resolveTitle, orStr_falsy h1, orStr_falsy h2, ht, orStr_truthy hne]
  · intro h1 h2 h3
    rw [resolveTitle, orStr_falsy h1, orStr_falsy h2, orStr_falsy h3]

/-- C6 witness: with both `title` and `name` set the resolver uses `title`;
with only `task_name` set it uses `task_name`; on the empty record it returns
the placeholder. -/
theorem resolveTitle_alias_priority_witness :
    resolveTitle { emptyRaw with title := some "From title", name := some "From name" }
      = "From title" ∧
    resolveTitle { emptyRaw with task_name := some "From task_name" } = "From task_name" ∧
    resolveTitle emptyRaw = "Untitled Task" :=
  ⟨(resolveTitle_alias_priority
      { emptyRaw with title := some "From title", name := some "From name" }).1
      "From title" rfl (by decide),
   (resolveTitle_alias_priority { emptyRaw with task_name := some "From task_name" }).2.1
      rfl rfl "From task_name" rfl (by decide),
   (resolveTitle_alias_priority emptyRaw).2.2 rfl rfl rfl⟩

/-- C7: tags coercion case by case — the comma-delimited string "a, b ,c"
resolves to ["a","b","c"]; an input that is already an array of strings is
returned unchanged; an absent tags field resolves to []. -/
theorem resolveTags_coercion_cases :
    resolveTags { emptyRaw with tags := some (TagsVal.str "a, b ,c") } = ["a", "b", "c"] ∧
    (∀ l, resolveTags { emptyRaw with tags := some (TagsVal.arr l) } = l) ∧
    resolveTags emptyRaw = [] :=
  ⟨by decide, fun l => rfl, rfl⟩

/-- C8: the batch form maps `normalizeTask` over the raw collection — the
middleware attaches exactly `normalizeAll` of the raw tasks, the result has
the same length as the input, and its i-th element is the normalization of
the i-th input. -/
theorem normalizeAll_batch_order (env : DateEnv) (now : String)
    (raws : List RawRecord) (t0 : Option (List NormalizedTask)) :
    (legacyAdapterMiddleware env now { rawTasks := some raws, tasks := t0 }).tasks
      = some (normalizeAll env now raws) ∧
    (normalizeAll env now raws).length = raws.length ∧
    (∀ i : Nat, (normalizeAll env now raws)[i]? = (raws[i]?).map (normalizeTask env now)) :=
  ⟨rfl, by simp [normalizeAll], fun i => by simp [normalizeAll]⟩

/-- C9: normalization is deterministic except for the timestamp — two runs of
`normalizeTask` on the same raw record at different wall-clock times agree on
every field other than `normalizedAt` (the embedding is pure, so neither run
can mutate the input). -/
theorem normalizeTask_deterministic_up_to_timestamp (env : DateEnv)
    (now₁ now₂ : String) (raw : RawRecord) :
    (normalizeTask env now₁ raw).id = (normalizeTask env now₂ raw).id ∧
    (normalizeTask env now₁ raw).title = (normalizeTask env now₂ raw).title ∧
    (normalizeTask env now₁ raw).description = (normalizeTask env now₂ raw).description ∧
    (normalizeTask env now₁ raw).status = (normalizeTask env now₂ raw).status ∧
    (normalizeTask env now₁ raw).priority = (normalizeTask env now₂ raw).priority ∧
    (normalizeTask env now₁ raw).assignee = (normalizeTask env now₂ raw).assignee ∧
    (normalizeTask env now₁ raw).dueDate = (normalizeTask env now₂ raw).dueDate ∧
    (normalizeTask env now₁ raw).tags = (normalizeTask env now₂ raw).tags :=
  ⟨rfl, rfl, rfl, rfl, rfl, rfl, rfl, rfl⟩

/-- C10: every resolver tests JS truthiness rather than presence, so setting
any single alias field to the empty string yields exactly the same normalized
record as removing that field (the timestamp argument being equal). -/
theorem normalizeTask_empty_string_is_absent (env : DateEnv) (now : String)
    (f : AliasField) (raw : RawRecord) :
    normalizeTask env now (setEmptyStr raw f) = normalizeTask env now (clearField raw f) := by
  cases f <;>
    simp [normalizeTask, setEmptyStr, clearField, resolveTitle, resolveDescription,
      resolveStatus, resolvePriority, resolveAssignee, resolveDueDate, dueDateRaw,
      resolveTags, jsIdString]

end Kizuna
